import Mathlib

/-
Verification of the caching and retry subsystem of the YFinance scraper
(src/cache.py, src/fetcher.py, src/main.py) against its specification.

The Python modules are shallowly embedded: pandas DataFrames become
time-indexed tables, the pickle files of the cache directory become an
association list from file name to file content, in-place index mutation
becomes an explicitly returned updated table, and the network call
`yf.download` becomes an oracle giving the outcome of each attempt.
-/

namespace YF

/-- Model of a pandas timestamp: a calendar date plus a time of day in
seconds.  `pd.Timestamp.normalize()` sets the time of day to zero. -/
structure DateTime where
  year : Nat
  month : Nat
  day : Nat
  sec : Nat
deriving DecidableEq, Repr

/-- Model of `Timestamp.normalize()`: strip the time-of-day component. -/
def DateTime.normalize (dt : DateTime) : DateTime :=
  { dt with sec := 0 }

/-- Split a character list on a separator character, like `str.split(c)`:
`splitOnChar c "a-b" = ["a", "b"]` and the empty input gives `[""]`. -/
def splitOnChar (c : Char) : List Char → List (List Char)
  | [] => [[]]
  | x :: xs =>
    match splitOnChar c xs with
    | [] => [[]]
    | w :: ws => if x = c then [] :: w :: ws else (x :: w) :: ws

/-- Read a non-empty all-digit character list as a decimal number
(accumulator form). -/
def charsToNatAux : List Char → Nat → Option Nat
  | [], acc => some acc
  | c :: cs, acc =>
    if c.isDigit then charsToNatAux cs (acc * 10 + (c.toNat - 48)) else none

/-- Read a non-empty all-digit character list as a decimal number;
anything else is `none`. -/
def charsToNat? (l : List Char) : Option Nat :=
  match l with
  | [] => none
  | _ => charsToNatAux l 0

/-- Parse a date component of the form Y-M-D or Y/M/D (the formats this
program can meet), validating month and day ranges as `pd.to_datetime`
does. -/
def parseDateParts (s : List Char) : Option (Nat × Nat × Nat) :=
  let compsDash := splitOnChar '-' s
  let comps := if compsDash.length = 3 then compsDash else splitOnChar '/' s
  match comps with
  | [y, m, d] =>
    match charsToNat? y, charsToNat? m, charsToNat? d with
    | some yn, some mn, some dn =>
      if y.length = 4 ∧ 1 ≤ mn ∧ mn ≤ 12 ∧ 1 ≤ dn ∧ dn ≤ 31 then
        some (yn, mn, dn)
      else none
    | _, _, _ => none
  | _ => none

/-- Parse a time component H:M:S into seconds after midnight. -/
def parseTimeParts (s : List Char) : Option Nat :=
  match splitOnChar ':' s with
  | [h, m, sec] =>
    match charsToNat? h, charsToNat? m, charsToNat? sec with
    | some hn, some mn, some sn =>
      if hn ≤ 23 ∧ mn ≤ 59 ∧ sn ≤ 59 then some (hn * 3600 + mn * 60 + sn)
      else none
    | _, _, _ => none
  | _ => none

/-- Model of `pd.to_datetime` on strings, restricted to the formats this
program can meet: a date `YYYY-MM-DD` or `YYYY/MM/DD`, optionally followed
by a space and a time of day `HH:MM:SS`.  Returns `none` where pandas
raises. -/
def to_datetime (s : String) : Option DateTime :=
  match splitOnChar ' ' s.toList with
  | [d] =>
    match parseDateParts d with
    | some (y, m, dd) => some ⟨y, m, dd, 0⟩
    | none => none
  | [d, t] =>
    match parseDateParts d, parseTimeParts t with
    | some (y, m, dd), some sec => some ⟨y, m, dd, sec⟩
    | _, _ => none
  | _ => none

/-- Zero-pad a number to two digits, as `strftime` does for months/days. -/
def pad2 (n : Nat) : String :=
  if n < 10 then "0" ++ toString n else toString n

/-- Zero-pad a number to four digits, as `strftime("%Y")` does for years. -/
def pad4 (n : Nat) : String :=
  if n < 10 then "000" ++ toString n
  else if n < 100 then "00" ++ toString n
  else if n < 1000 then "0" ++ toString n
  else toString n

/-- Model of `dt.strftime("%Y-%m-%d")`. -/
def strftime_ymd (dt : DateTime) : String :=
  pad4 dt.year ++ "-" ++ pad2 dt.month ++ "-" ++ pad2 dt.day

/-- `Caches._normalize_date` (src/cache.py:48-55): normalize a date string
to `YYYY-MM-DD`; on a parse failure the raw string is returned unchanged
(the exception branch logs a warning and returns `date_str`). -/
def normalize_date (date_str : String) : String :=
  match to_datetime date_str with
  | some dt => strftime_ymd dt.normalize
  | none => date_str

/-- Model of a pandas DataFrame as this program uses it: a time-indexed
table holding one `(index timestamp, row payload)` pair per row. -/
structure DataFrame where
  rows : List (DateTime × Int)
deriving DecidableEq, Repr

/-- Model of `df.empty`. -/
def DataFrame.isEmpty (df : DataFrame) : Bool :=
  df.rows.isEmpty

/-- Model of the in-place statement
`df.index = pd.to_datetime(df.index).normalize()`: every index entry loses
its time-of-day component; the cell values are untouched. -/
def DataFrame.normalizeIndex (df : DataFrame) : DataFrame :=
  ⟨df.rows.map (fun r => (r.1.normalize, r.2))⟩

/-- Content of one cache file, as `pickle.load` can see it: bytes that
raise on deserialization, a deserialized object that is not a DataFrame,
or a deserialized DataFrame. -/
inductive CacheFile where
  | corrupt
  | nonDF
  | table (df : DataFrame)
deriving DecidableEq, Repr

/-- The cache directory: an association list from file name to file
content.  The first binding of a name is its current content. -/
abbrev Store := List (String × CacheFile)

/-- Look up a file by name (`Path.exists` plus `open(...,'rb')`). -/
def get_file : Store → String → Option CacheFile
  | [], _ => none
  | (q, c) :: t, p => if q = p then some c else get_file t p

/-- Model of `Path.unlink`: drop every binding of the name. -/
def remove_file (s : Store) (p : String) : Store :=
  s.filter (fun qc => qc.1 ≠ p)

/-- Model of `open(path,'wb')` + `pickle.dump`: (over)write one file. -/
def set_file (s : Store) (p : String) (c : CacheFile) : Store :=
  (p, c) :: remove_file s p

theorem get_file_remove_self (s : Store) (p : String) :
    get_file (remove_file s p) p = none := by
  induction s with
  | nil => rfl
  | cons qc t ih =>
    by_cases h : qc.1 = p
    · simpa [remove_file, h] using ih
    · simpa [remove_file, get_file, h] using ih

theorem get_file_remove_ne (s : Store) (p q : String) (h : q ≠ p) :
    get_file (remove_file s p) q = get_file s q := by
  induction s with
  | nil => rfl
  | cons qc t ih =>
    by_cases hq : qc.1 = p
    · have h1 : remove_file (qc :: t) p = remove_file t p := by
        simp [remove_file, List.filter_cons, hq]
      have hne : ¬qc.1 = q := fun hh => h (hh ▸ hq)
      have h2 : get_file (qc :: t) q = get_file t q := by
        simp [get_file, hne]
      rw [h1, h2, ih]
    · have h1 : remove_file (qc :: t) p = qc :: remove_file t p := by
        simp [remove_file, List.filter_cons, hq]
      rw [h1]
      by_cases hqq : qc.1 = q
      · simp [get_file, hqq]
      · simp [get_file, hqq, ih]

theorem get_file_set_self (s : Store) (p : String) (c : CacheFile) :
    get_file (set_file s p c) p = some c := by
  simp [set_file, get_file]

theorem get_file_set_ne (s : Store) (p q : String) (c : CacheFile)
    (h : q ≠ p) : get_file (set_file s p c) q = get_file s q := by
  have hne : ¬p = q := fun hh => h hh.symm
  simp only [set_file, get_file, if_neg hne]
  exact get_file_remove_ne s p q h

/-- Whether a file name matches the glob pattern `pre ++ "*.pkl"` used by
`Caches._find_existing_cache_files` (src/cache.py:63-67).  For the flat
file names of the cache directory this means: `pre` is a prefix of the
name, `.pkl` is a suffix, and the two occurrences do not overlap. -/
def glob_match (pre fname : String) : Bool :=
  pre.toList.isPrefixOf fname.toList
    && (String.toList ".pkl").isSuffixOf fname.toList
    && decide (pre.length + 4 ≤ fname.length)

/-- `Caches._find_existing_cache_files` (src/cache.py:63-67): the names of
all cache files of `ticker` with the same normalized start date, any end
date. -/
def find_existing_cache_files (store : Store) (ticker start : String) :
    List String :=
  (store.filter (fun qc =>
    glob_match (ticker ++ "_" ++ normalize_date start ++ "_") qc.1)).map
    (fun qc => qc.1)

/-- `Caches._delete_old_caches` (src/cache.py:69-77): unlink every file
matching the `(ticker, start)` glob except `keep_path`. -/
def delete_old_caches (store : Store) (ticker start : String)
    (keep_path : String) : Store :=
  store.filter (fun qc =>
    !(glob_match (ticker ++ "_" ++ normalize_date start ++ "_") qc.1
        && qc.1 != keep_path))

/-- `Caches._load_from_cache` (src/cache.py:79-96).  The file name it
reads, from `f"{ticker}{interval}.pkl"`, has no underscore between ticker
and interval.  On a deserialization error the file is unlinked; a
deserialized value that is an empty table or not a DataFrame falls through
to `return None` without deleting the file.  Every error is handled
inside, so the result is the loaded table (if any) plus the resulting
cache directory. -/
def load_from_cache (store : Store) (ticker interval : String) :
    Option DataFrame × Store :=
  let cache_path := ticker ++ interval ++ ".pkl"
  match get_file store cache_path with
  | none => (none, store)
  | some .corrupt => (none, remove_file store cache_path)
  | some .nonDF => (none, store)
  | some (.table data) =>
    if data.isEmpty then (none, store) else (some data, store)

/-- `Caches._save_to_cache` (src/cache.py:98-112): reject an empty table,
normalize the table index in place, and write the table under
`f"{ticker}_{interval}.pkl"` (with an underscore).  The third component is
the caller's table after the in-place index mutation. -/
def save_to_cache (df : DataFrame) (ticker interval : String)
    (store : Store) : Bool × Store × DataFrame :=
  if df.isEmpty then (false, store, df)
  else
    let df2 := df.normalizeIndex
    let cache_path := ticker ++ "_" ++ interval ++ ".pkl"
    (true, set_file store cache_path (.table df2), df2)

/-- `Caches._get_cache_path` (src/cache.py:57-61). -/
def get_cache_path (ticker start endDate : String) : String :=
  ticker ++ "_" ++ normalize_date start ++ "_" ++ normalize_date endDate
    ++ ".pkl"

/-- `Caches._load_from_cache_range` (src/cache.py:114-131): the same
loading logic as `load_from_cache`, keyed by an explicit cache path. -/
def load_from_cache_range (store : Store) (cache_path : String) :
    Option DataFrame × Store :=
  match get_file store cache_path with
  | none => (none, store)
  | some .corrupt => (none, remove_file store cache_path)
  | some .nonDF => (none, store)
  | some (.table data) =>
    if data.isEmpty then (none, store) else (some data, store)

/-- `Caches._save_to_cache_range` (src/cache.py:133-148): reject an empty
table, normalize the index in place, delete the sibling cache files of
`(ticker, start)` other than `cache_path`, then write to `cache_path`. -/
def save_to_cache_range (df : DataFrame) (cache_path : String)
    (ticker start : String) (store : Store) : Bool × Store × DataFrame :=
  if df.isEmpty then (false, store, df)
  else
    let df2 := df.normalizeIndex
    let store1 := delete_old_caches store ticker start cache_path
    (true, set_file store1 cache_path (.table df2), df2)

/-- Outcome of one `yf.download` call: an exception, or a returned table
(possibly empty).  The provider parameters are fixed across the retry
loop, so the call is modelled as an oracle indexed by the attempt
number. -/
inductive FetchOutcome where
  | err
  | ok (df : DataFrame)

/-- Observable result of one fetcher invocation: the value returned to
the caller, the final cache directory, the sleeps performed (in order, in
seconds), and the number of network calls made. -/
structure FetchResult where
  result : Option DataFrame
  store : Store
  delays : List ℚ
  calls : Nat

/-- The retry loop of `YfData.get_yf_for_timeframe` (src/fetcher.py:81-100)
over the list of remaining attempt indices.  Each iteration sleeps
`base_delay * 2 ** attempt` and then calls the network; a non-empty table
is saved and returned, an exception — or the `ValueError` raised for an
empty table, caught by the same handler — on the final attempt returns
`None`, and otherwise the loop continues. -/
def run_attempts (net : Nat → FetchOutcome) (max_retries : Nat)
    (base_delay : ℚ) (ticker interval : String) :
    List Nat → Store → FetchResult
  | [], store => ⟨none, store, [], 0⟩
  | a :: rest, store =>
    let d := base_delay * 2 ^ a
    match net a with
    | .ok df =>
      if df.isEmpty = false then
        let r := save_to_cache df ticker interval store
        ⟨some r.2.2, r.2.1, [d], 1⟩
      else if a = max_retries - 1 then ⟨none, store, [d], 1⟩
      else
        let r := run_attempts net max_retries base_delay ticker interval
          rest store
        ⟨r.result, r.store, d :: r.delays, r.calls + 1⟩
    | .err =>
      if a = max_retries - 1 then ⟨none, store, [d], 1⟩
      else
        let r := run_attempts net max_retries base_delay ticker interval
          rest store
        ⟨r.result, r.store, d :: r.delays, r.calls + 1⟩

/-- `YfData.get_yf_for_timeframe` (src/fetcher.py:57-100): return the
cached table if the interval-mode cache hits, else run the retry loop for
attempts `0, ..., max_retries - 1`. -/
def get_yf_for_timeframe (net : Nat → FetchOutcome) (max_retries : Nat)
    (base_delay : ℚ) (ticker interval : String) (store : Store) :
    FetchResult :=
  match (load_from_cache store ticker interval).1 with
  | some df => ⟨some df, (load_from_cache store ticker interval).2, [], 0⟩
  | none =>
    run_attempts net max_retries base_delay ticker interval
      (List.range max_retries) (load_from_cache store ticker interval).2

/-- The retry loop of `YfData.get_data_for_range` (src/fetcher.py:127-148):
identical to `run_attempts` except that a non-empty table is saved with
`save_to_cache_range` under the precomputed cache path. -/
def run_attempts_range (net : Nat → FetchOutcome) (max_retries : Nat)
    (base_delay : ℚ) (cache_path ticker start : String) :
    List Nat → Store → FetchResult
  | [], store => ⟨none, store, [], 0⟩
  | a :: rest, store =>
    let d := base_delay * 2 ^ a
    match net a with
    | .ok df =>
      if df.isEmpty = false then
        let r := save_to_cache_range df cache_path ticker start store
        ⟨some r.2.2, r.2.1, [d], 1⟩
      else if a = max_retries - 1 then ⟨none, store, [d], 1⟩
      else
        let r := run_attempts_range net max_retries base_delay cache_path
          ticker start rest store
        ⟨r.result, r.store, d :: r.delays, r.calls + 1⟩
    | .err =>
      if a = max_retries - 1 then ⟨none, store, [d], 1⟩
      else
        let r := run_attempts_range net max_retries base_delay cache_path
          ticker start rest store
        ⟨r.result, r.store, d :: r.delays, r.calls + 1⟩

/-- `YfData.get_data_for_range` (src/fetcher.py:102-148): return the
cached table if the range-mode cache hits, else run the retry loop. -/
def get_data_for_range (net : Nat → FetchOutcome) (max_retries : Nat)
    (base_delay : ℚ) (ticker start endDate : String) (store : Store) :
    FetchResult :=
  match (load_from_cache_range store (get_cache_path ticker start endDate)).1 with
  | some df =>
    ⟨some df,
      (load_from_cache_range store (get_cache_path ticker start endDate)).2,
      [], 0⟩
  | none =>
    run_attempts_range net max_retries base_delay
      (get_cache_path ticker start endDate) ticker start
      (List.range max_retries)
      (load_from_cache_range store (get_cache_path ticker start endDate)).2

/-- Python string comparison: lexicographic by code point. -/
def str_lt (s t : String) : Prop :=
  List.Lex (· < ·) s.toList t.toList

instance : DecidableRel str_lt := fun s t => by
  unfold str_lt; infer_instance

theorem str_lt_trichotomy (s t : String) : str_lt s t ∨ s = t ∨ str_lt t s := by
  rcases trichotomous (r := List.Lex ((· < ·) : Char → Char → Prop))
      s.toList t.toList with h | h | h
  · exact Or.inl h
  · exact Or.inr (Or.inl (String.ext h))
  · exact Or.inr (Or.inr h)

theorem str_lt_asymm {s t : String} (h : str_lt s t) : ¬str_lt t s :=
  IsAsymm.asymm (r := List.Lex ((· < ·) : Char → Char → Prop)) _ _ h

theorem str_lt_trans {s t u : String} (h1 : str_lt s t) (h2 : str_lt t u) :
    str_lt s u :=
  IsTrans.trans (r := List.Lex ((· < ·) : Char → Char → Prop)) _ _ _ h1 h2

/-- Lexicographic comparison of `(name, value)` pairs, as Python's
`sorted` on `dict.items()` compares its tuples. -/
def pair_le (a b : String × String) : Prop :=
  str_lt a.1 b.1 ∨ (a.1 = b.1 ∧ (str_lt a.2 b.2 ∨ a.2 = b.2))

instance : DecidableRel pair_le := fun a b => by
  unfold pair_le; infer_instance

instance : IsTotal (String × String) pair_le where
  total a b := by
    rcases str_lt_trichotomy a.1 b.1 with h | h | h
    · exact Or.inl (Or.inl h)
    · rcases str_lt_trichotomy a.2 b.2 with h2 | h2 | h2
      · exact Or.inl (Or.inr ⟨h, Or.inl h2⟩)
      · exact Or.inl (Or.inr ⟨h, Or.inr h2⟩)
      · exact Or.inr (Or.inr ⟨h.symm, Or.inl h2⟩)
    · exact Or.inr (Or.inl h)

instance : IsTrans (String × String) pair_le where
  trans a b c hab hbc := by
    rcases hab with h1 | ⟨h1, h1v⟩
    · rcases hbc with h2 | ⟨h2, _⟩
      · exact Or.inl (str_lt_trans h1 h2)
      · exact Or.inl (h2 ▸ h1)
    · rcases hbc with h2 | ⟨h2, h2v⟩
      · exact Or.inl (h1 ▸ h2)
      · refine Or.inr ⟨h1.trans h2, ?_⟩
        rcases h1v with hv | hv
        · rcases h2v with hw | hw
          · exact Or.inl (str_lt_trans hv hw)
          · exact Or.inl (hw ▸ hv)
        · rcases h2v with hw | hw
          · exact Or.inl (hv ▸ hw)
          · exact Or.inr (hv.trans hw)

instance : IsAntisymm (String × String) pair_le where
  antisymm a b hab hba := by
    rcases hab with h1 | ⟨h1, h1v⟩
    · rcases hba with h2 | ⟨h2, _⟩
      · exact absurd h1 (str_lt_asymm h2)
      · exact absurd h1 (h2 ▸ fun hh => str_lt_asymm hh hh)
    · rcases hba with h2 | ⟨_, h2v⟩
      · exact absurd h2 (h1 ▸ fun hh => str_lt_asymm hh hh)
      · rcases h1v with hv | hv
        · rcases h2v with hw | hw
          · exact absurd hv (str_lt_asymm hw)
          · exact absurd hv (hw ▸ fun hh => str_lt_asymm hh hh)
        · exact Prod.ext h1 hv

/-- Modelled from the spec: the unit tests exercise `Caches._get_cache_key`
(and the CLI fetch path that derives keys from a parameter mapping), but
the method is absent from the sources.  Per the spec the key is built "by
sorting parameter names lexicographically and concatenating `name=value`
pairs joined with a fixed separator, prefixed by the ticker", escaping
date-like values to `YYYY-MM-DD` and falling back to the raw string on
malformed dates.  Python's `sorted` on `dict.items()` orders the
`(name, value)` tuples lexicographically. -/
def get_cache_key (ticker : String) (params : List (String × String)) :
    String :=
  let sortedParams := List.insertionSort pair_le params
  let parts := sortedParams.map (fun kv => kv.1 ++ "=" ++ normalize_date kv.2)
  parts.foldl (fun acc part => acc ++ "_" ++ part) ("ticker=" ++ ticker)

/-- Parsed command-line arguments of src/main.py (the argparse result;
fields that cannot influence the exit code, such as the output directory,
are omitted). -/
structure Args where
  tickers : List String
  start : Option String
  endDate : Option String
  interval : String
  threads : Nat
  market : Option String

/-- `validate_date_format` (src/main.py:34-38): the anchored regex
`\d{4}-\d{2}-\d{2}`. -/
def validate_date_format (s : String) : Bool :=
  match s.toList with
  | [y1, y2, y3, y4, h1, m1, m2, h2, d1, d2] =>
    y1.isDigit && y2.isDigit && y3.isDigit && y4.isDigit && h1 == '-'
      && m1.isDigit && m2.isDigit && h2 == '-' && d1.isDigit && d2.isDigit
  | _ => false

/-- The interval whitelist of `validate_interval` (src/main.py:40-43). -/
def valid_intervals : List String :=
  ["1m", "2m", "5m", "15m", "30m", "60m", "90m", "1h", "1d", "5d", "1wk",
    "1mo", "3mo"]

/-- `validate_interval` (src/main.py:40-43). -/
def validate_interval (interval : String) : Bool :=
  valid_intervals.contains interval

/-- The argument checks of `main` (src/main.py:61-78) taken together:
tickers present, start and end dates well-formed when given, interval
known. -/
def validation_ok (args : Args) : Bool :=
  !args.tickers.isEmpty
    && (match args.start with
        | some s => validate_date_format s
        | none => true)
    && (match args.endDate with
        | some s => validate_date_format s
        | none => true)
    && validate_interval args.interval

/-- `main` (src/main.py:45-158), reduced to its exit code.  The per-ticker
fetch `fetcher.get_data` submitted to the worker pool at line 113 is not
among the sources; modelled from the spec as an opaque fetch giving a
table or an absent result per ticker and never raising.  A ticker counts
as a success when its fetch result is a non-empty table; CSV-write errors
are caught and cannot change the exit code; a `--market` run prints a
listing and returns `None`, which `exit` maps to code 0. -/
def main_run (args : Args) (fetch_data : String → Option DataFrame) : Nat :=
  match args.market with
  | some _ => 0
  | none =>
    if args.tickers.isEmpty then 1
    else if (match args.start with
             | some s => !validate_date_format s
             | none => false) then 1
    else if (match args.endDate with
             | some s => !validate_date_format s
             | none => false) then 1
    else if !validate_interval args.interval then 1
    else if args.tickers.any (fun t =>
        match fetch_data t with
        | some df => !df.isEmpty
        | none => false) then 0
    else 1

theorem get_file_delete_old (store : Store) (t s keep p : String)
    (hm : glob_match (t ++ "_" ++ normalize_date s ++ "_") p = true)
    (hne : p ≠ keep) :
    get_file (delete_old_caches store t s keep) p = none := by
  induction store with
  | nil => rfl
  | cons qc rest ih =>
    unfold delete_old_caches at ih ⊢
    rw [List.filter_cons]
    by_cases hq :
        (!(glob_match (t ++ "_" ++ normalize_date s ++ "_") qc.1
          && qc.1 != keep)) = true
    · rw [if_pos hq]
      have hqp : ¬qc.1 = p := by
        intro hh
        rw [hh] at hq
        simp [hm, hne] at hq
      show get_file (qc :: _) p = none
      simpa [get_file, hqp] using ih
    · rw [if_neg hq]
      exact ih

theorem glob_match_encode (pre e : String) :
    glob_match pre (pre ++ e ++ ".pkl") = true := by
  have hdata : (pre ++ e ++ ".pkl").toList
      = pre.toList ++ (e.toList ++ (String.toList ".pkl")) := by
    show (pre ++ e ++ ".pkl").data = _
    rw [String.data_append, String.data_append, List.append_assoc]
    rfl
  have hpre : pre.toList.isPrefixOf (pre ++ e ++ ".pkl").toList = true := by
    rw [List.isPrefixOf_iff_prefix, hdata]
    exact List.prefix_append _ _
  have hsuf : (String.toList ".pkl").isSuffixOf
      (pre ++ e ++ ".pkl").toList = true := by
    rw [List.isSuffixOf_iff_suffix, hdata, ← List.append_assoc]
    exact List.suffix_append _ _
  have hlen : pre.length + 4 ≤ (pre ++ e ++ ".pkl").length := by
    rw [String.length_append, String.length_append]
    have h4 : String.length ".pkl" = 4 := rfl
    omega
  unfold glob_match
  rw [hpre, hsuf, decide_eq_true hlen]
  rfl

/-- A one-row non-empty table used as concrete test data. -/
def sample_df : DataFrame :=
  ⟨[(⟨2023, 1, 2, 0⟩, 100)]⟩

/-- A second one-row non-empty table used as concrete test data. -/
def sample_df2 : DataFrame :=
  ⟨[(⟨2023, 7, 3, 0⟩, 250)]⟩

/-- Claim C8: storing an empty table under any key returns failure,
performs no write and no sibling deletion, and leaves the cache directory
(hence any prior entry and its siblings) exactly as it was, for both the
interval-mode and the range-mode save. -/
theorem c8_empty_put_noop (df : DataFrame) (ticker interval start
    cache_path : String) (store : Store) (hdf : df.isEmpty = true) :
    save_to_cache df ticker interval store = (false, store, df)
    ∧ save_to_cache_range df cache_path ticker start store
        = (false, store, df) := by
  constructor
  · simp [save_to_cache, hdf]
  · simp [save_to_cache_range, hdf]

/-- Witness for C8 at a concrete empty table over a cache directory that
already holds a prior entry and a sibling: the put fails and the directory
is untouched. -/
theorem c8_empty_put_noop_witness :
    save_to_cache ⟨[]⟩ "AAPL" "1d"
        [("AAPL_1d.pkl", CacheFile.table sample_df)]
      = (false, [("AAPL_1d.pkl", CacheFile.table sample_df)], ⟨[]⟩)
    ∧ save_to_cache_range ⟨[]⟩ "AAPL_2023-01-01_2023-06-30.pkl" "AAPL"
        "2023-01-01"
        [("AAPL_2023-01-01_2023-03-31.pkl", CacheFile.table sample_df)]
      = (false,
        [("AAPL_2023-01-01_2023-03-31.pkl", CacheFile.table sample_df)],
        ⟨[]⟩) :=
  ⟨(c8_empty_put_noop ⟨[]⟩ "AAPL" "1d" "2023-01-01" "AAPL_1d.pkl"
      [("AAPL_1d.pkl", CacheFile.table sample_df)] (by decide)).1,
   (c8_empty_put_noop ⟨[]⟩ "AAPL" "1d" "2023-01-01"
      "AAPL_2023-01-01_2023-06-30.pkl"
      [("AAPL_2023-01-01_2023-03-31.pkl", CacheFile.table sample_df)]
      (by decide)).2⟩

/-- Claim C1 (code bug): an interval-mode put followed by the
interval-mode get of the same key misses, because `_save_to_cache` writes
`f"{ticker}_{interval}.pkl"` while `_load_from_cache` reads
`f"{ticker}{interval}.pkl"` (no underscore).  At ticker `AAPL`, interval
`1d` and a non-empty table, the put succeeds and writes `AAPL_1d.pkl`,
yet the following get returns absent; the range-mode round-trip, whose
load and save share one path, does return the stored table. -/
theorem c1_interval_roundtrip_bug :
    (save_to_cache sample_df "AAPL" "1d" []).1 = true
    ∧ get_file (save_to_cache sample_df "AAPL" "1d" []).2.1 "AAPL_1d.pkl"
        = some (CacheFile.table sample_df.normalizeIndex)
    ∧ (load_from_cache (save_to_cache sample_df "AAPL" "1d" []).2.1
        "AAPL" "1d").1 = none
    ∧ (load_from_cache_range
        (save_to_cache_range sample_df
          (get_cache_path "AAPL" "2023-01-01" "2023-06-30") "AAPL"
          "2023-01-01" []).2.1
        (get_cache_path "AAPL" "2023-01-01" "2023-06-30")).1
      = some sample_df.normalizeIndex := by
  decide

/-- Claim C5 (counterexample): a file whose bytes deserialize to an empty
table makes `get` return absent, but the file still exists afterwards —
the deletion happens only in the deserialization-error branch, so the
claim that the file no longer exists is false at this input. -/
theorem c5_counterexample :
    (load_from_cache_range [("k.pkl", CacheFile.table ⟨[]⟩)] "k.pkl").1
      = none
    ∧ get_file
        (load_from_cache_range [("k.pkl", CacheFile.table ⟨[]⟩)] "k.pkl").2
        "k.pkl"
      = some (CacheFile.table ⟨[]⟩) := by
  decide

/-- Claim C5 (amended): for every key, if the file's bytes fail to
deserialize, `get` returns absent and the file no longer exists
afterwards; if the bytes deserialize to an empty table, `get` returns
absent but the file is left in place; in both cases every error is
handled inside the load (the model is total, mirroring that no exception
reaches the caller).  Both the range-mode and the interval-mode load
behave this way. -/
theorem c5_self_heal_amended (store : Store) (p ticker interval : String) :
    (get_file store p = some CacheFile.corrupt →
      (load_from_cache_range store p).1 = none
      ∧ get_file (load_from_cache_range store p).2 p = none)
    ∧ (∀ df, get_file store p = some (CacheFile.table df) →
        df.isEmpty = true →
        (load_from_cache_range store p).1 = none
        ∧ (load_from_cache_range store p).2 = store)
    ∧ (get_file store (ticker ++ interval ++ ".pkl") = some CacheFile.corrupt →
      (load_from_cache store ticker interval).1 = none
      ∧ get_file (load_from_cache store ticker interval).2
          (ticker ++ interval ++ ".pkl") = none)
    ∧ (∀ df,
        get_file store (ticker ++ interval ++ ".pkl")
          = some (CacheFile.table df) →
        df.isEmpty = true →
        (load_from_cache store ticker interval).1 = none
        ∧ (load_from_cache store ticker interval).2 = store) := by
  refine ⟨fun h => ?_, fun df h hdf => ?_, fun h => ?_, fun df h hdf => ?_⟩
  · constructor
    · simp [load_from_cache_range, h]
    · simp [load_from_cache_range, h, get_file_remove_self]
  · constructor
    · simp [load_from_cache_range, h, hdf]
    · simp [load_from_cache_range, h, hdf]
  · constructor
    · simp [load_from_cache, h]
    · simp [load_from_cache, h, get_file_remove_self]
  · constructor
    · simp [load_from_cache, h, hdf]
    · simp [load_from_cache, h, hdf]

/-- Witness for the amended C5 at concrete stores: a corrupt file is
deleted and reads as absent; a valid-but-empty file reads as absent with
the store unchanged. -/
theorem c5_self_heal_amended_witness :
    ((load_from_cache_range [("c.pkl", CacheFile.corrupt)] "c.pkl").1 = none
      ∧ get_file (load_from_cache_range [("c.pkl", CacheFile.corrupt)]
          "c.pkl").2 "c.pkl" = none)
    ∧ ((load_from_cache_range [("e.pkl", CacheFile.table ⟨[]⟩)] "e.pkl").1
        = none
      ∧ (load_from_cache_range [("e.pkl", CacheFile.table ⟨[]⟩)] "e.pkl").2
        = [("e.pkl", CacheFile.table ⟨[]⟩)]) :=
  ⟨(c5_self_heal_amended [("c.pkl", CacheFile.corrupt)] "c.pkl" "A" "1d").1
      (by decide),
   (c5_self_heal_amended [("e.pkl", CacheFile.table ⟨[]⟩)] "e.pkl" "A"
      "1d").2.1 ⟨[]⟩ (by decide) (by decide)⟩

/-- Claim C6: a range-mode store of a non-empty table under
`(ticker, start, end)` succeeds, writes the normalized table at the target
path, and deletes every other on-disk entry whose name matches the
`(ticker, start)` sibling glob — the target path itself being excluded
from deletion — so no sibling with a different end survives.  In
particular every path of the form `ticker_start_e2.pkl` other than the
target reads as absent afterwards. -/
theorem c6_sibling_eviction (df : DataFrame) (ticker start endDate : String)
    (store : Store) (hdf : df.isEmpty = false) :
    (save_to_cache_range df (get_cache_path ticker start endDate) ticker
        start store).1 = true
    ∧ get_file (save_to_cache_range df (get_cache_path ticker start endDate)
          ticker start store).2.1 (get_cache_path ticker start endDate)
        = some (CacheFile.table df.normalizeIndex)
    ∧ (∀ p, glob_match (ticker ++ "_" ++ normalize_date start ++ "_") p
          = true →
        p ≠ get_cache_path ticker start endDate →
        get_file (save_to_cache_range df (get_cache_path ticker start
            endDate) ticker start store).2.1 p = none)
    ∧ (∀ e2, get_cache_path ticker start e2 ≠ get_cache_path ticker start
          endDate →
        get_file (save_to_cache_range df (get_cache_path ticker start
            endDate) ticker start store).2.1
          (get_cache_path ticker start e2) = none) := by
  have hsave : save_to_cache_range df (get_cache_path ticker start endDate)
      ticker start store
      = (true,
        set_file (delete_old_caches store ticker start
          (get_cache_path ticker start endDate))
          (get_cache_path ticker start endDate)
          (CacheFile.table df.normalizeIndex),
        df.normalizeIndex) := by
    simp [save_to_cache_range, hdf]
  refine ⟨by rw [hsave], ?_, ?_, ?_⟩
  · rw [hsave]
    exact get_file_set_self _ _ _
  · intro p hp hne
    rw [hsave]
    show get_file (set_file _ _ _) p = none
    rw [get_file_set_ne _ _ _ _ hne]
    exact get_file_delete_old store ticker start _ p hp hne
  · intro e2 hne
    rw [hsave]
    show get_file (set_file _ _ _) (get_cache_path ticker start e2) = none
    rw [get_file_set_ne _ _ _ _ hne]
    refine get_file_delete_old store ticker start _ _ ?_ hne
    show glob_match (ticker ++ "_" ++ normalize_date start ++ "_")
      (ticker ++ "_" ++ normalize_date start ++ "_"
        ++ normalize_date e2 ++ ".pkl") = true
    exact glob_match_encode _ _

/-- Witness for C6: storing range-mode entries for
`(AAPL, 2023-01-01, 2023-06-30)` and then `(AAPL, 2023-01-01, 2023-12-31)`
leaves exactly one file for that ticker and start — the second — and the
first entry's path reads as absent. -/
theorem c6_sibling_eviction_witness :
    (save_to_cache_range sample_df2
        (get_cache_path "AAPL" "2023-01-01" "2023-12-31") "AAPL"
        "2023-01-01"
        (save_to_cache_range sample_df
          (get_cache_path "AAPL" "2023-01-01" "2023-06-30") "AAPL"
          "2023-01-01" []).2.1).1 = true
    ∧ get_file (save_to_cache_range sample_df2
          (get_cache_path "AAPL" "2023-01-01" "2023-12-31") "AAPL"
          "2023-01-01"
          (save_to_cache_range sample_df
            (get_cache_path "AAPL" "2023-01-01" "2023-06-30") "AAPL"
            "2023-01-01" []).2.1).2.1
        (get_cache_path "AAPL" "2023-01-01" "2023-06-30") = none
    ∧ (save_to_cache_range sample_df2
        (get_cache_path "AAPL" "2023-01-01" "2023-12-31") "AAPL"
        "2023-01-01"
        (save_to_cache_range sample_df
          (get_cache_path "AAPL" "2023-01-01" "2023-06-30") "AAPL"
          "2023-01-01" []).2.1).2.1
      = [("AAPL_2023-01-01_2023-12-31.pkl",
          CacheFile.table sample_df2.normalizeIndex)] :=
  ⟨(c6_sibling_eviction sample_df2 "AAPL" "2023-01-01" "2023-12-31"
      (save_to_cache_range sample_df
        (get_cache_path "AAPL" "2023-01-01" "2023-06-30") "AAPL"
        "2023-01-01" []).2.1 (by decide)).1,
   (c6_sibling_eviction sample_df2 "AAPL" "2023-01-01" "2023-12-31"
      (save_to_cache_range sample_df
        (get_cache_path "AAPL" "2023-01-01" "2023-06-30") "AAPL"
        "2023-01-01" []).2.1 (by decide)).2.2.2
      "2023-06-30" (by decide),
   by decide⟩

/-- One attempt outcome counts as failed when the call raises or the
returned table is empty. -/
def attempt_fails (net : Nat → FetchOutcome) (k : Nat) : Prop :=
  net k = .err ∨ ∃ df, net k = .ok df ∧ df.isEmpty = true

theorem run_attempts_all_fail (net : Nat → FetchOutcome) (mr : Nat) (b : ℚ)
    (t i : String) (l : List Nat) : ∀ store : Store,
    (∀ a ∈ l, attempt_fails net a) →
    (run_attempts net mr b t i l store).result = none := by
  induction l with
  | nil => intro store h; rfl
  | cons a rest ih =>
    intro store h
    have ha := h a (List.mem_cons_self a rest)
    have hrest : ∀ a2 ∈ rest, attempt_fails net a2 :=
      fun a2 h2 => h a2 (List.mem_cons_of_mem a h2)
    cases hna : net a with
    | err =>
      by_cases hl : a = mr - 1
      · subst hl
        simp [run_attempts, hna]
      · simp [run_attempts, hna, hl, ih store hrest]
    | ok df =>
      have hdf : df.isEmpty = true := by
        rcases ha with he | ⟨df2, hok, hempty⟩
        · rw [hna] at he
          exact absurd he (by simp)
        · rw [hna] at hok
          injection hok with hh
          exact hh ▸ hempty
      by_cases hl : a = mr - 1
      · subst hl
        simp [run_attempts, hna, hdf]
      · simp [run_attempts, hna, hdf, hl, ih store hrest]

theorem run_attempts_range_all_fail (net : Nat → FetchOutcome) (mr : Nat)
    (b : ℚ) (cp t s : String) (l : List Nat) : ∀ store : Store,
    (∀ a ∈ l, attempt_fails net a) →
    (run_attempts_range net mr b cp t s l store).result = none := by
  induction l with
  | nil => intro store h; rfl
  | cons a rest ih =>
    intro store h
    have ha := h a (List.mem_cons_self a rest)
    have hrest : ∀ a2 ∈ rest, attempt_fails net a2 :=
      fun a2 h2 => h a2 (List.mem_cons_of_mem a h2)
    cases hna : net a with
    | err =>
      by_cases hl : a = mr - 1
      · subst hl
        simp [run_attempts_range, hna]
      · simp [run_attempts_range, hna, hl, ih store hrest]
    | ok df =>
      have hdf : df.isEmpty = true := by
        rcases ha with he | ⟨df2, hok, hempty⟩
        · rw [hna] at he
          exact absurd he (by simp)
        · rw [hna] at hok
          injection hok with hh
          exact hh ▸ hempty
      by_cases hl : a = mr - 1
      · subst hl
        simp [run_attempts_range, hna, hdf]
      · simp [run_attempts_range, hna, hdf, hl, ih store hrest]

/-- Claim C3: if every one of the `max_retries` attempts either raises or
returns an empty table, both fetch operations return an absent result
(`None`) to the caller; the embedding is a total function, mirroring that
every per-attempt exception is caught inside the loop and none propagates.
A cache miss is assumed, since on a cache hit no network attempt is made
at all. -/
theorem c3_retry_exhaustion_absent (net net2 : Nat → FetchOutcome)
    (max_retries : Nat) (base_delay : ℚ)
    (ticker interval start endDate : String) (store store2 : Store)
    (hfail : ∀ k, k < max_retries → attempt_fails net k)
    (hfail2 : ∀ k, k < max_retries → attempt_fails net2 k)
    (hmiss : (load_from_cache store ticker interval).1 = none)
    (hmiss2 : (load_from_cache_range store2
        (get_cache_path ticker start endDate)).1 = none) :
    (get_yf_for_timeframe net max_retries base_delay ticker interval
        store).result = none
    ∧ (get_data_for_range net2 max_retries base_delay ticker start endDate
        store2).result = none := by
  constructor
  · unfold get_yf_for_timeframe
    rw [hmiss]
    exact run_attempts_all_fail net max_retries base_delay ticker interval
      (List.range max_retries) _
      (fun a ha => hfail a (List.mem_range.mp ha))
  · unfold get_data_for_range
    rw [hmiss2]
    exact run_attempts_range_all_fail net2 max_retries base_delay
      (get_cache_path ticker start endDate) ticker start
      (List.range max_retries) _
      (fun a ha => hfail2 a (List.mem_range.mp ha))

/-- Witness for C3: with two retries that always raise and an empty cache,
both fetchers return absent. -/
theorem c3_retry_exhaustion_absent_witness :
    (get_yf_for_timeframe (fun _ => FetchOutcome.err) 2 1 "AAPL" "1d"
        []).result = none
    ∧ (get_data_for_range (fun _ => FetchOutcome.err) 2 1 "AAPL"
        "2023-01-01" "2023-06-30" []).result = none :=
  c3_retry_exhaustion_absent (fun _ => FetchOutcome.err)
    (fun _ => FetchOutcome.err) 2 1 "AAPL" "1d" "2023-01-01" "2023-06-30"
    [] [] (fun k _ => Or.inl rfl) (fun k _ => Or.inl rfl) (by decide)
    (by decide)

theorem run_attempts_step_err (net : Nat → FetchOutcome) (mr : Nat) (b : ℚ)
    (t i : String) (a : Nat) (rest : List Nat) (store : Store)
    (hna : net a = .err) (hl : a ≠ mr - 1) :
    run_attempts net mr b t i (a :: rest) store =
      ⟨(run_attempts net mr b t i rest store).result,
        (run_attempts net mr b t i rest store).store,
        b * 2 ^ a :: (run_attempts net mr b t i rest store).delays,
        (run_attempts net mr b t i rest store).calls + 1⟩ := by
  simp [run_attempts, hna, hl]

theorem run_attempts_step_ok (net : Nat → FetchOutcome) (mr : Nat) (b : ℚ)
    (t i : String) (a : Nat) (rest : List Nat) (store : Store)
    (df : DataFrame) (hna : net a = .ok df) (hdf : df.isEmpty = false) :
    run_attempts net mr b t i (a :: rest) store =
      ⟨some (save_to_cache df t i store).2.2,
        (save_to_cache df t i store).2.1, [b * 2 ^ a], 1⟩ := by
  simp [run_attempts, hna, hdf]

theorem run_attempts_range_step_err (net : Nat → FetchOutcome) (mr : Nat)
    (b : ℚ) (cp t s : String) (a : Nat) (rest : List Nat) (store : Store)
    (hna : net a = .err) (hl : a ≠ mr - 1) :
    run_attempts_range net mr b cp t s (a :: rest) store =
      ⟨(run_attempts_range net mr b cp t s rest store).result,
        (run_attempts_range net mr b cp t s rest store).store,
        b * 2 ^ a :: (run_attempts_range net mr b cp t s rest store).delays,
        (run_attempts_range net mr b cp t s rest store).calls + 1⟩ := by
  simp [run_attempts_range, hna, hl]

theorem run_attempts_range_step_ok (net : Nat → FetchOutcome) (mr : Nat)
    (b : ℚ) (cp t s : String) (a : Nat) (rest : List Nat) (store : Store)
    (df : DataFrame) (hna : net a = .ok df) (hdf : df.isEmpty = false) :
    run_attempts_range net mr b cp t s (a :: rest) store =
      ⟨some (save_to_cache_range df cp t s store).2.2,
        (save_to_cache_range df cp t s store).2.1, [b * 2 ^ a], 1⟩ := by
  simp [run_attempts_range, hna, hdf]

theorem fetch_fail_twice (net : Nat → FetchOutcome) (mr : Nat) (b : ℚ)
    (t i : String) (store : Store) (df : DataFrame)
    (hmiss : (load_from_cache store t i).1 = none)
    (h0 : net 0 = .err) (h1 : net 1 = .err) (h2 : net 2 = .ok df)
    (hdf : df.isEmpty = false) (hmr : 3 ≤ mr) :
    get_yf_for_timeframe net mr b t i store =
      ⟨some (save_to_cache df t i (load_from_cache store t i).2).2.2,
        (save_to_cache df t i (load_from_cache store t i).2).2.1,
        [b * 2 ^ 0, b * 2 ^ 1, b * 2 ^ 2], 3⟩ := by
  obtain ⟨m, rfl⟩ : ∃ m, mr = m + 3 := ⟨mr - 3, by omega⟩
  have hrw : get_yf_for_timeframe net (m + 3) b t i store
      = run_attempts net (m + 3) b t i (List.range (m + 3))
          (load_from_cache store t i).2 := by
    unfold get_yf_for_timeframe
    rw [hmiss]
  have hrange : List.range (m + 3) = 0 :: 1 :: 2 :: List.range' 3 m := by
    rw [List.range_eq_range']
    rfl
  rw [hrw, hrange,
    run_attempts_step_err net (m + 3) b t i 0 _ _ h0 (by omega),
    run_attempts_step_err net (m + 3) b t i 1 _ _ h1 (by omega),
    run_attempts_step_ok net (m + 3) b t i 2 _ _ df h2 hdf]

theorem fetch_range_fail_twice (net : Nat → FetchOutcome) (mr : Nat)
    (b : ℚ) (t s e : String) (store : Store) (df : DataFrame)
    (hmiss : (load_from_cache_range store (get_cache_path t s e)).1 = none)
    (h0 : net 0 = .err) (h1 : net 1 = .err) (h2 : net 2 = .ok df)
    (hdf : df.isEmpty = false) (hmr : 3 ≤ mr) :
    get_data_for_range net mr b t s e store =
      ⟨some (save_to_cache_range df (get_cache_path t s e) t s
          (load_from_cache_range store (get_cache_path t s e)).2).2.2,
        (save_to_cache_range df (get_cache_path t s e) t s
          (load_from_cache_range store (get_cache_path t s e)).2).2.1,
        [b * 2 ^ 0, b * 2 ^ 1, b * 2 ^ 2], 3⟩ := by
  obtain ⟨m, rfl⟩ : ∃ m, mr = m + 3 := ⟨mr - 3, by omega⟩
  have hrw : get_data_for_range net (m + 3) b t s e store
      = run_attempts_range net (m + 3) b (get_cache_path t s e) t s
          (List.range (m + 3))
          (load_from_cache_range store (get_cache_path t s e)).2 := by
    unfold get_data_for_range
    rw [hmiss]
  have hrange : List.range (m + 3) = 0 :: 1 :: 2 :: List.range' 3 m := by
    rw [List.range_eq_range']
    rfl
  rw [hrw, hrange,
    run_attempts_range_step_err net (m + 3) b (get_cache_path t s e) t s 0
      _ _ h0 (by omega),
    run_attempts_range_step_err net (m + 3) b (get_cache_path t s e) t s 1
      _ _ h1 (by omega),
    run_attempts_range_step_ok net (m + 3) b (get_cache_path t s e) t s 2
      _ _ df h2 hdf]

/-- Claim C4: in the retry loop, a sleep of `base_delay * 2 ** attempt`
seconds precedes every network attempt including the first (the recorded
sleeps are exactly `b, 2b, 4b` and their count equals the call count), so
a network source that fails twice and then succeeds is called exactly 3
times, the delays strictly increase with ratio 2, and the final non-empty
result is both cached under the derived path and returned — in both the
interval-mode and the range-mode fetcher. -/
theorem c4_backoff_schedule (net net2 : Nat → FetchOutcome) (mr : Nat)
    (b : ℚ) (t i s e : String) (store store2 : Store) (df df2 : DataFrame)
    (hmiss : (load_from_cache store t i).1 = none)
    (hmiss2 : (load_from_cache_range store2 (get_cache_path t s e)).1
      = none)
    (h0 : net 0 = .err) (h1 : net 1 = .err) (h2 : net 2 = .ok df)
    (h20 : net2 0 = .err) (h21 : net2 1 = .err) (h22 : net2 2 = .ok df2)
    (hdf : df.isEmpty = false) (hdf2 : df2.isEmpty = false)
    (hmr : 3 ≤ mr) (hb : 0 < b) :
    get_yf_for_timeframe net mr b t i store =
      ⟨some df.normalizeIndex,
        set_file (load_from_cache store t i).2 (t ++ "_" ++ i ++ ".pkl")
          (CacheFile.table df.normalizeIndex),
        [b * 2 ^ 0, b * 2 ^ 1, b * 2 ^ 2], 3⟩
    ∧ get_data_for_range net2 mr b t s e store2 =
      ⟨some df2.normalizeIndex,
        set_file
          (delete_old_caches
            (load_from_cache_range store2 (get_cache_path t s e)).2 t s
            (get_cache_path t s e))
          (get_cache_path t s e) (CacheFile.table df2.normalizeIndex),
        [b * 2 ^ 0, b * 2 ^ 1, b * 2 ^ 2], 3⟩
    ∧ List.Chain' (· < ·) [b * 2 ^ 0, b * 2 ^ 1, b * 2 ^ 2]
    ∧ List.Chain' (fun x y => y = 2 * x) [b * 2 ^ 0, b * 2 ^ 1, b * 2 ^ 2]
    ∧ ([b * 2 ^ 0, b * 2 ^ 1, b * 2 ^ 2] : List ℚ).length = 3 := by
  refine ⟨?_, ?_, ?_, ?_, rfl⟩
  · rw [fetch_fail_twice net mr b t i store df hmiss h0 h1 h2 hdf hmr]
    simp [save_to_cache, hdf]
  · rw [fetch_range_fail_twice net2 mr b t s e store2 df2 hmiss2 h20 h21
      h22 hdf2 hmr]
    simp [save_to_cache_range, hdf2]
  · have hstep : ∀ k : Nat, b * 2 ^ k < b * 2 ^ (k + 1) := by
      intro k
      have h2k : (2 : ℚ) ^ k < 2 ^ (k + 1) := by
        rw [pow_succ]
        nlinarith [pow_pos (by norm_num : (0 : ℚ) < 2) k]
      exact mul_lt_mul_of_pos_left h2k hb
    exact List.Chain'.cons (hstep 0) (List.Chain'.cons (hstep 1)
      (List.chain'_singleton _))
  · have hstep : ∀ k : Nat, b * 2 ^ (k + 1) = 2 * (b * 2 ^ k) := by
      intro k
      rw [pow_succ]
      ring
    exact List.Chain'.cons (hstep 0).symm.symm
      (List.Chain'.cons (hstep 1) (List.chain'_singleton _))

/-- Witness for C4: a concrete source failing twice then succeeding, with
`max_retries = 3` and `base_delay = 1`, on an empty cache. -/
theorem c4_backoff_schedule_witness :
    get_yf_for_timeframe
        (fun k => if k < 2 then FetchOutcome.err
          else FetchOutcome.ok sample_df) 3 1 "AAPL" "1d" [] =
      ⟨some sample_df.normalizeIndex,
        set_file (load_from_cache [] "AAPL" "1d").2
          ("AAPL" ++ "_" ++ "1d" ++ ".pkl")
          (CacheFile.table sample_df.normalizeIndex),
        [1 * 2 ^ 0, 1 * 2 ^ 1, 1 * 2 ^ 2], 3⟩
    ∧ get_data_for_range
        (fun k => if k < 2 then FetchOutcome.err
          else FetchOutcome.ok sample_df2) 3 1 "AAPL" "2023-01-01"
        "2023-06-30" [] =
      ⟨some sample_df2.normalizeIndex,
        set_file
          (delete_old_caches
            (load_from_cache_range []
              (get_cache_path "AAPL" "2023-01-01" "2023-06-30")).2
            "AAPL" "2023-01-01"
            (get_cache_path "AAPL" "2023-01-01" "2023-06-30"))
          (get_cache_path "AAPL" "2023-01-01" "2023-06-30")
          (CacheFile.table sample_df2.normalizeIndex),
        [1 * 2 ^ 0, 1 * 2 ^ 1, 1 * 2 ^ 2], 3⟩
    ∧ List.Chain' (· < ·)
        ([1 * 2 ^ 0, 1 * 2 ^ 1, 1 * 2 ^ 2] : List ℚ)
    ∧ List.Chain' (fun x y => y = 2 * x)
        ([1 * 2 ^ 0, 1 * 2 ^ 1, 1 * 2 ^ 2] : List ℚ)
    ∧ ([1 * 2 ^ 0, 1 * 2 ^ 1, 1 * 2 ^ 2] : List ℚ).length = 3 :=
  c4_backoff_schedule
    (fun k => if k < 2 then FetchOutcome.err else FetchOutcome.ok sample_df)
    (fun k => if k < 2 then FetchOutcome.err else FetchOutcome.ok sample_df2)
    3 1 "AAPL" "1d" "2023-01-01" "2023-06-30" [] [] sample_df sample_df2
    (by decide) (by decide) rfl rfl rfl rfl rfl rfl (by decide) (by decide)
    (le_refl 3) one_pos

/-- Claim C7: cache-key derivation is deterministic (it is a function of
the parameter list) and order-independent — two parameter lists equal as
mappings, i.e. permutations of one another, give the identical key —
date-like values are normalized to `YYYY-MM-DD` before inclusion so
semantically equal dates written differently give the same key, and a
malformed date string is included verbatim rather than failing.  The last
conjunct pins the key format expected by the repository's unit test. -/
theorem c7_cache_key_canonical :
    (∀ (ticker : String) (p1 p2 : List (String × String)),
      List.Perm p1 p2 → get_cache_key ticker p1 = get_cache_key ticker p2)
    ∧ (∀ v : String, to_datetime v = none → normalize_date v = v)
    ∧ get_cache_key "AAPL" [("start", "2023/01/01"), ("interval", "1d")]
        = get_cache_key "AAPL" [("interval", "1d"), ("start", "2023-01-01")]
    ∧ get_cache_key "AAPL" [("start", "2023-01-01"), ("interval", "1d")]
        = "ticker=AAPL_interval=1d_start=2023-01-01" := by
  refine ⟨?_, ?_, by decide, by decide⟩
  · intro ticker p1 p2 hperm
    have hsort : List.insertionSort pair_le p1
        = List.insertionSort pair_le p2 :=
      List.eq_of_perm_of_sorted
        ((List.perm_insertionSort pair_le p1).trans
          (hperm.trans (List.perm_insertionSort pair_le p2).symm))
        (List.sorted_insertionSort pair_le p1)
        (List.sorted_insertionSort pair_le p2)
    unfold get_cache_key
    rw [hsort]
  · intro v hv
    unfold normalize_date
    rw [hv]

/-- Witness for C7: the permuted concrete mapping of the repository's unit
test yields the same key, and a malformed date passes through verbatim. -/
theorem c7_cache_key_canonical_witness :
    get_cache_key "AAPL" [("start", "2023-01-01"), ("interval", "1d")]
      = get_cache_key "AAPL" [("interval", "1d"), ("start", "2023-01-01")]
    ∧ normalize_date "not-a-date" = "not-a-date" :=
  ⟨c7_cache_key_canonical.1 "AAPL" _ _
      (List.Perm.swap ("interval", "1d") ("start", "2023-01-01") []),
    c7_cache_key_canonical.2.1 "not-a-date" (by decide)⟩

theorem success_any_iff (l : List String)
    (fd : String → Option DataFrame) :
    (l.any fun t =>
      match fd t with
      | some df => !df.isEmpty
      | none => false) = true
    ↔ ∃ t ∈ l, ∃ df, fd t = some df ∧ df.isEmpty = false := by
  rw [List.any_eq_true]
  constructor
  · rintro ⟨t, htl, hp⟩
    refine ⟨t, htl, ?_⟩
    cases hfd : fd t with
    | none =>
      rw [hfd] at hp
      exact absurd hp (by simp)
    | some df =>
      rw [hfd] at hp
      exact ⟨df, rfl, by simpa using hp⟩
  · rintro ⟨t, htl, df, hfd, hdf⟩
    exact ⟨t, htl, by simp [hfd, hdf]⟩

/-- Claim C9: for a CLI invocation that is not a market listing and names
at least one ticker, a validation failure exits with code 1; under valid
arguments the exit code is 0 exactly when at least one ticker's fetch
returns a non-empty table, and it is 1 otherwise (the only possible codes
being 0 and 1). -/
theorem c9_main_exit_codes (args : Args)
    (fetch_data : String → Option DataFrame)
    (hm : args.market = none) (ht : args.tickers ≠ []) :
    (validation_ok args = false → main_run args fetch_data = 1)
    ∧ (validation_ok args = true →
      (main_run args fetch_data = 0 ↔
        ∃ t ∈ args.tickers, ∃ df, fetch_data t = some df
          ∧ df.isEmpty = false)
      ∧ (main_run args fetch_data = 0 ∨ main_run args fetch_data = 1)) := by
  have hemp : args.tickers.isEmpty = false := by
    cases hl : args.tickers with
    | nil => exact absurd hl ht
    | cons a l => rfl
  have hGA : (match args.start with
      | some s => !validate_date_format s
      | none => false)
      = !(match args.start with
          | some s => validate_date_format s
          | none => true) := by
    cases args.start <;> rfl
  have hGB : (match args.endDate with
      | some s => !validate_date_format s
      | none => false)
      = !(match args.endDate with
          | some s => validate_date_format s
          | none => true) := by
    cases args.endDate <;> rfl
  have hmain : main_run args fetch_data
      = if (!(match args.start with
            | some s => validate_date_format s
            | none => true)) = true then 1
        else if (!(match args.endDate with
            | some s => validate_date_format s
            | none => true)) = true then 1
        else if (!validate_interval args.interval) = true then 1
        else if (args.tickers.any fun t =>
            match fetch_data t with
            | some df => !df.isEmpty
            | none => false) = true then 0
        else 1 := by
    unfold main_run
    rw [hm, hGA, hGB]
    simp [hemp]
  have hany_iff := success_any_iff args.tickers fetch_data
  constructor
  · intro hv
    by_cases hA : (match args.start with
        | some s => validate_date_format s
        | none => true) = true
    · by_cases hB : (match args.endDate with
          | some s => validate_date_format s
          | none => true) = true
      · by_cases hC : validate_interval args.interval = true
        · exfalso
          unfold validation_ok at hv
          simp [hemp, hA, hB, hC] at hv
        · rw [hmain]
          simp [hA, hB, Bool.eq_false_iff.mpr hC]
      · rw [hmain]
        simp [hA, Bool.eq_false_iff.mpr hB]
    · rw [hmain]
      simp [Bool.eq_false_iff.mpr hA]
  · intro hv
    unfold validation_ok at hv
    simp only [hemp, Bool.not_false, Bool.true_and, Bool.and_eq_true] at hv
    obtain ⟨⟨hA, hB⟩, hC⟩ := hv
    rw [hmain]
    simp only [hA, hB, hC, Bool.not_true, Bool.false_eq_true, if_false]
    by_cases hany : (args.tickers.any fun t =>
        match fetch_data t with
        | some df => !df.isEmpty
        | none => false) = true
    · rw [if_pos hany]
      exact ⟨⟨fun _ => hany_iff.mp hany, fun _ => rfl⟩, Or.inl rfl⟩
    · rw [if_neg hany]
      exact ⟨⟨fun h01 => absurd h01 one_ne_zero,
        fun hex => absurd (hany_iff.mpr hex) hany⟩, Or.inr rfl⟩

/-- Witness for C9: one valid invocation whose single fetch succeeds
exits 0, applied from the claim theorem at concrete arguments. -/
theorem c9_main_exit_codes_witness :
    main_run ⟨["AAPL"], none, none, "1d", 1, none⟩
      (fun _ => some sample_df) = 0 :=
  ((c9_main_exit_codes ⟨["AAPL"], none, none, "1d", 1, none⟩
      (fun _ => some sample_df) rfl (by decide)).2 (by decide)).1.mpr
    ⟨"AAPL", by decide, sample_df, rfl, by decide⟩

/-- A non-empty table whose index carries a time of day, so that the
in-place normalization is observable. -/
def sample_df3 : DataFrame :=
  ⟨[(⟨2023, 1, 2, 3600⟩, 42)]⟩

/-- Claim C10: storing a non-empty table mutates the caller's table in
place — modelled by both save operations returning the argument table
with its index replaced by the time-of-day-normalized one — the value
written to the cache is that same mutated table, and after a successful
network fetch the fetcher returns exactly this normalized table. -/
theorem c10_save_mutates_caller (df : DataFrame)
    (ticker interval start cache_path : String) (store : Store)
    (net : Nat → FetchOutcome) (mr : Nat) (b : ℚ)
    (hdf : df.isEmpty = false) (hmr : 1 ≤ mr) (hnet : net 0 = .ok df)
    (hmiss : (load_from_cache store ticker interval).1 = none) :
    (save_to_cache df ticker interval store).2.2 = df.normalizeIndex
    ∧ (save_to_cache_range df cache_path ticker start store).2.2
        = df.normalizeIndex
    ∧ get_file (save_to_cache df ticker interval store).2.1
        (ticker ++ "_" ++ interval ++ ".pkl")
        = some (CacheFile.table
            (save_to_cache df ticker interval store).2.2)
    ∧ get_file (save_to_cache_range df cache_path ticker start store).2.1
        cache_path
        = some (CacheFile.table
            (save_to_cache_range df cache_path ticker start store).2.2)
    ∧ (get_yf_for_timeframe net mr b ticker interval store).result
        = some df.normalizeIndex := by
  have hsave : save_to_cache df ticker interval store
      = (true, set_file store (ticker ++ "_" ++ interval ++ ".pkl")
          (CacheFile.table df.normalizeIndex), df.normalizeIndex) := by
    simp [save_to_cache, hdf]
  have hsave2 : save_to_cache_range df cache_path ticker start store
      = (true, set_file (delete_old_caches store ticker start cache_path)
          cache_path (CacheFile.table df.normalizeIndex),
          df.normalizeIndex) := by
    simp [save_to_cache_range, hdf]
  refine ⟨by rw [hsave], by rw [hsave2], ?_, ?_, ?_⟩
  · rw [hsave]
    exact get_file_set_self _ _ _
  · rw [hsave2]
    exact get_file_set_self _ _ _
  · obtain ⟨m, rfl⟩ : ∃ m, mr = m + 1 := ⟨mr - 1, by omega⟩
    have hrw : get_yf_for_timeframe net (m + 1) b ticker interval store
        = run_attempts net (m + 1) b ticker interval (List.range (m + 1))
            (load_from_cache store ticker interval).2 := by
      unfold get_yf_for_timeframe
      rw [hmiss]
    have hrange : List.range (m + 1) = 0 :: List.range' 1 m := by
      rw [List.range_eq_range']
      rfl
    rw [hrw, hrange, run_attempts_step_ok net (m + 1) b ticker interval 0
      _ _ df hnet hdf]
    simp [save_to_cache, hdf]

/-- Witness for C10 at a table whose index has a one-hour time of day:
the saves and the fetch all yield the table with the time stripped. -/
theorem c10_save_mutates_caller_witness :
    (save_to_cache sample_df3 "AAPL" "1d" []).2.2
        = sample_df3.normalizeIndex
    ∧ (save_to_cache_range sample_df3 "AAPL_x.pkl" "AAPL" "2023-01-01"
        []).2.2 = sample_df3.normalizeIndex
    ∧ get_file (save_to_cache sample_df3 "AAPL" "1d" []).2.1
        ("AAPL" ++ "_" ++ "1d" ++ ".pkl")
        = some (CacheFile.table
            (save_to_cache sample_df3 "AAPL" "1d" []).2.2)
    ∧ get_file (save_to_cache_range sample_df3 "AAPL_x.pkl" "AAPL"
          "2023-01-01" []).2.1 "AAPL_x.pkl"
        = some (CacheFile.table
            (save_to_cache_range sample_df3 "AAPL_x.pkl" "AAPL"
              "2023-01-01" []).2.2)
    ∧ (get_yf_for_timeframe (fun _ => FetchOutcome.ok sample_df3) 1 1
        "AAPL" "1d" []).result = some sample_df3.normalizeIndex :=
  c10_save_mutates_caller sample_df3 "AAPL" "1d" "2023-01-01" "AAPL_x.pkl"
    [] (fun _ => FetchOutcome.ok sample_df3) 1 1 (by decide) (le_refl 1)
    rfl (by decide)

end YF
